import Mathlib

/-!
Shallow embedding of `src/lib/radio_cc2500.c`, the CC2500 radio driver.

The driver's side effects (chip strobes, FIFO burst reads/writes, buffer
writes, interrupt masking, callback invocation) are embedded as explicit
data: `receive_packet` returns a record of its effects, and the interrupt
handler `port2_isr` and the transmit routine `cc2500_tx` return ordered
event traces.  Machine bytes are `Nat` with `% 256` where the C code's
`uint8_t` arithmetic can overflow.
-/

namespace RadioCC2500

/-- Modelled from the spec: the header `cc2500.h` that defines the strobe
command identifiers is not under `src/`; the spec only names the strobes
("enter RX mode, enter TX mode, flush RX FIFO").  The numeric values are
the CC2500 datasheet command codes; no claim depends on the exact values,
only on the identity of the strobe issued. -/
def SRX : Nat := 0x34

/-- Enter-transmit-mode strobe identifier (see `SRX` for provenance). -/
def STX : Nat := 0x35

/-- Flush-RX-FIFO strobe identifier (see `SRX` for provenance). -/
def SFRX : Nat := 0x3A

/-- Modelled from the spec: `NUM_RXBYTES` comes from the missing header.
The spec says the receive path proceeds "only if the FIFO byte count
indicates at least one pending packet"; the mask extracts the byte-count
bits (low 7 bits) of the RXBYTES status byte. -/
def NUM_RXBYTES : Nat := 0x7F

/-- Modelled from the spec: `CRC_OK` comes from the missing header.  The
spec says "the CRC-valid bit is encoded in the high bit of the second
status byte", so the mask is the high bit of a byte. -/
def CRC_OK : Nat := 0x80

/-- Modelled from the spec: `LQI_POS` comes from the missing header.  Per
the spec the CRC-valid bit lives in the second status byte, so the index
into the 2-byte status trailer is 1. -/
def LQI_POS : Nat := 1

/-- Modelled from the spec: `CC2500_BUFFER_LENGTH` is defined in the
missing header `radio_cc2500.h`.  The spec says the static buffers are
"fixed-capacity byte buffers sized to a maximum frame length"; the
CC2500's FIFO holds 64 bytes, so the maximum frame length is 64. -/
def CC2500_BUFFER_LENGTH : Nat := 64

/-- Field offsets in the frame buffer, as `#define`d in the source. -/
def LENGTH_FIELD : Nat := 0

/-- Offset of the destination/source address byte in the frame. -/
def ADDRESS_FIELD : Nat := 1

/-- Offset of the first payload byte in the frame. -/
def DATA_FIELD : Nat := 2

/-- The `power_table` array from the source: optimum PATABLE levels
according to Table 31 of the CC2500 datasheet (18 entries). -/
def power_table : List Nat :=
  [0x00, 0x50, 0x44, 0xC0,
   0x84, 0x81, 0x46, 0x93,
   0x55, 0x8D, 0xC6, 0x97,
   0x6E, 0x7F, 0xA9, 0xBB,
   0xFE, 0xFF]

/-- The table index `cc2500_set_power` reads after its clamping step.
The C code is `if ( power > sizeof(power_table) ) power = sizeof(power_table) - 1;`
and then reads `power_table[power]`.  The `uint8_t` parameter is modelled
by reducing the argument mod 256. -/
def set_power_index (power : Nat) : Nat :=
  if power % 256 > power_table.length then power_table.length - 1 else power % 256

/-- The byte `cc2500_set_power` bursts into the PATABLE register: the
table entry at `set_power_index` (out-of-bounds reads, which the C code
can perform, are modelled as a default read). -/
def cc2500_set_power (power : Nat) : Nat :=
  power_table.getD (set_power_index power) 0

/-- Observable side effects of the driver, in program order. -/
inductive Event where
  | disableIE : Event
  | enableIE : Event
  | burstWriteFifo : List Nat → Event
  | strobeEv : Nat → Event
  | waitHigh : Event
  | waitLow : Event
  | clearFlag : Event
  | callbackEv : List Nat → Nat → Event
deriving DecidableEq, Repr

/-- Effect trace of `cc2500_tx( p_buffer, length )`: disable the GDO0
interrupt, burst-write `length` bytes of `p_buffer` into the TX FIFO,
strobe STX, busy-wait for the GDO0 line to rise then fall, clear the
pending interrupt flag, re-enable the interrupt. -/
def cc2500_tx (p_buffer : List Nat) (length : Nat) : List Event :=
  [Event.disableIE] ++
  [Event.burstWriteFifo (p_buffer.take length)] ++
  [Event.strobeEv STX] ++
  [Event.waitHigh] ++
  [Event.waitLow] ++
  [Event.clearFlag] ++
  [Event.enableIE]

/-- Write a run of bytes into a buffer at consecutive indices, as
`memcpy( &buf[ofs], bytes, n )` does. -/
def writeAt : List Nat → Nat → List Nat → List Nat
  | buf, _, [] => buf
  | buf, ofs, b :: bs => writeAt (buf.set ofs b) (ofs + 1) bs

/-- State of `p_tx_buffer` after `cc2500_tx_packet( p_buffer, length, destination )`
ran its three stores: `p_tx_buffer[LENGTH_FIELD] = length + 1`,
`p_tx_buffer[ADDRESS_FIELD] = destination`, and
`memcpy( &p_tx_buffer[DATA_FIELD], p_buffer, length )`.
The `uint8_t` stores truncate mod 256. -/
def cc2500_tx_packet_buffer (p_tx_buffer p_buffer : List Nat)
    (length destination : Nat) : List Nat :=
  writeAt
    ((p_tx_buffer.set LENGTH_FIELD ((length + 1) % 256)).set ADDRESS_FIELD
      (destination % 256))
    DATA_FIELD (p_buffer.take length)

/-- Effect trace of `cc2500_tx_packet`: it ends by calling
`cc2500_tx( p_tx_buffer, length + DATA_FIELD )`. -/
def cc2500_tx_packet_trace (p_tx_buffer p_buffer : List Nat)
    (length destination : Nat) : List Event :=
  cc2500_tx (cc2500_tx_packet_buffer p_tx_buffer p_buffer length destination)
    ((length + DATA_FIELD) % 256)

/-- The frame handed to the chip by `cc2500_tx_packet`: the first
`length + DATA_FIELD` bytes of the rebuilt `p_tx_buffer` (exactly what
`cc2500_tx` burst-writes into the TX FIFO). -/
def txFrame (p_tx_buffer p_buffer : List Nat) (length destination : Nat) : List Nat :=
  (cc2500_tx_packet_buffer p_tx_buffer p_buffer length destination).take
    ((length + DATA_FIELD) % 256)

/-- Effects of one call to `receive_packet( p_buffer, length )`. -/
structure RxResult where
  ret : Nat
  lengthOut : Nat
  writes : List (Nat × Nat)
  strobes : List Nat
  fifoReads : Nat
deriving DecidableEq, Repr

/-- Embedding of `receive_packet`.  `rxstat` is the byte returned by
`read_status( RXBYTES )`, `fifo` the queued RX-FIFO bytes (byte `i` of the
FIFO is `fifo.getD i 0`), `length` the caller's in/out maximum length.
Mirrors the source: if the masked status is nonzero, read the length
byte; if it fits, burst-read the payload into `p_buffer[0..len-1]`, set
`*length`, read the 2-byte status trailer, append it at
`p_buffer[len]`/`p_buffer[len+1]`, and return `status[LQI_POS] & CRC_OK`;
else record the oversized length, strobe SFRX, and return 0; with nothing
pending, return 0 touching nothing. -/
def receive_packet (rxstat : Nat) (fifo : List Nat) (length : Nat) : RxResult :=
  if rxstat &&& NUM_RXBYTES ≠ 0 then
    let packet_length := fifo.getD 0 0
    if packet_length ≤ length then
      let status := [fifo.getD (1 + packet_length) 0, fifo.getD (2 + packet_length) 0]
      { ret := status.getD LQI_POS 0 &&& CRC_OK
        lengthOut := packet_length
        writes :=
          (List.range packet_length).map (fun i => (i, fifo.getD (1 + i) 0)) ++
          [(packet_length, status.getD 0 0), (packet_length + 1, status.getD 1 0)]
        strobes := []
        fifoReads := 1 + packet_length + 2 }
    else
      { ret := 0
        lengthOut := packet_length
        writes := []
        strobes := [SFRX]
        fifoReads := 1 }
  else
    { ret := 0, lengthOut := length, writes := [], strobes := [], fifoReads := 0 }

/-- Apply a recorded list of `(index, byte)` buffer writes in order.
`List.set` ignores out-of-range indices; the overflow claims are stated
on the recorded indices themselves. -/
def applyWrites (buf : List Nat) (ws : List (Nat × Nat)) : List Nat :=
  ws.foldl (fun b w => b.set w.1 w.2) buf

/-- Effect trace of the interrupt handler `port2_isr`.  `gdo0_flag` says
whether the GDO0 bit of `PxIFG` was set.  If so the handler calls
`receive_packet( p_rx_buffer, &length )` with `length = CC2500_BUFFER_LENGTH`
and, on a nonzero return, invokes `rx_callback( p_rx_buffer, length )`.
The flag clear `GDO0_PxIFG &= ~GDO0_PIN` sits after the `if`, so it runs
on every execution. -/
def port2_isr (rx_buffer : List Nat) (gdo0_flag : Bool) (rxstat : Nat)
    (fifo : List Nat) : List Event :=
  (if gdo0_flag then
    (receive_packet rxstat fifo CC2500_BUFFER_LENGTH).strobes.map Event.strobeEv ++
    (if (receive_packet rxstat fifo CC2500_BUFFER_LENGTH).ret ≠ 0 then
      [Event.callbackEv
        (applyWrites rx_buffer (receive_packet rxstat fifo CC2500_BUFFER_LENGTH).writes)
        (receive_packet rxstat fifo CC2500_BUFFER_LENGTH).lengthOut]
    else [])
  else []) ++ [Event.clearFlag]

/-- The callback invocations recorded in a trace, as (buffer, length) pairs. -/
def callbackEvents (tr : List Event) : List (List Nat × Nat) :=
  tr.filterMap (fun e =>
    match e with
    | Event.callbackEv b l => some (b, l)
    | _ => none)

/-! Helper lemmas about the embedding. -/

theorem and_CRC_OK_ne_zero_iff (n : Nat) : n &&& CRC_OK ≠ 0 ↔ n.testBit 7 = true := by
  have h : CRC_OK = 2 ^ 7 := rfl
  rw [h, Nat.and_two_pow]
  cases hb : n.testBit 7 <;> simp

theorem writeAt_length (bytes : List Nat) : ∀ (buf : List Nat) (ofs : Nat),
    (writeAt buf ofs bytes).length = buf.length := by
  induction bytes with
  | nil => intro buf ofs; rfl
  | cons b bs ih => intro buf ofs; rw [writeAt, ih]; simp

theorem writeAt_eq (bytes : List Nat) : ∀ (buf : List Nat) (ofs : Nat),
    ofs + bytes.length ≤ buf.length →
    writeAt buf ofs bytes = buf.take ofs ++ bytes ++ buf.drop (ofs + bytes.length) := by
  induction bytes with
  | nil => intro buf ofs h; simp [writeAt]
  | cons b bs ih =>
    intro buf ofs h
    simp only [List.length_cons] at h
    have hofs : ofs < buf.length := by omega
    rw [writeAt, ih (buf.set ofs b) (ofs + 1) (by simp; omega)]
    rw [List.set_take, List.drop_set, if_pos (by omega : ofs < ofs + 1 + bs.length)]
    rw [List.take_succ]
    have hget : buf[ofs]?.toList = [buf[ofs]] := by
      simp [List.getElem?_eq_getElem hofs]
    rw [hget, List.set_append_right _ _ (by simp [List.length_take])]
    have hlen : (buf.take ofs).length = ofs := List.length_take_of_le (by omega)
    rw [hlen]
    simp only [Nat.sub_self, List.set_cons_zero]
    have harith : ofs + 1 + bs.length = ofs + (bs.length + 1) := by omega
    rw [harith]
    simp [List.append_assoc]

theorem applyWrites_cons (buf : List Nat) (w : Nat × Nat) (ws : List (Nat × Nat)) :
    applyWrites buf (w :: ws) = applyWrites (buf.set w.1 w.2) ws := rfl

theorem applyWrites_append (buf : List Nat) (ws ws2 : List (Nat × Nat)) :
    applyWrites buf (ws ++ ws2) = applyWrites (applyWrites buf ws) ws2 :=
  List.foldl_append _ _ _ _

theorem applyWrites_length (ws : List (Nat × Nat)) : ∀ (buf : List Nat),
    (applyWrites buf ws).length = buf.length := by
  induction ws with
  | nil => intro buf; rfl
  | cons w ws ih => intro buf; rw [applyWrites_cons, ih]; simp

theorem applyWrites_range_getD (g : Nat → Nat) :
    ∀ (n : Nat) (buf : List Nat) (i : Nat), i < n → i < buf.length →
    (applyWrites buf ((List.range n).map (fun j => (j, g j)))).getD i 0 = g i := by
  intro n
  induction n with
  | zero => intro buf i hi; omega
  | succ m ih =>
    intro buf i hi hib
    rw [List.range_succ, List.map_append, applyWrites_append]
    simp only [List.map_cons, List.map_nil]
    have hset : applyWrites (applyWrites buf ((List.range m).map (fun j => (j, g j))))
        [((m : Nat), g m)] =
        (applyWrites buf ((List.range m).map (fun j => (j, g j)))).set m (g m) := rfl
    rw [hset]
    by_cases hc : i < m
    · rw [List.getD_eq_getElem?_getD, List.getElem?_set_ne (by omega), ← List.getD_eq_getElem?_getD]
      exact ih buf i hc hib
    · have him : i = m := by omega
      subst him
      rw [List.getD_eq_getElem?_getD,
        List.getElem?_set_self (by rw [applyWrites_length]; exact hib)]
      rfl

theorem receive_writes_uniform (rxstat : Nat) (fifo : List Nat) (maxlen : Nat)
    (h1 : rxstat &&& NUM_RXBYTES ≠ 0) (h2 : fifo.getD 0 0 ≤ maxlen) :
    (receive_packet rxstat fifo maxlen).writes =
      (List.range (fifo.getD 0 0 + 2)).map (fun i => (i, fifo.getD (1 + i) 0)) := by
  rw [receive_packet, if_pos h1]
  simp only [if_pos h2]
  rw [List.range_succ, List.range_succ, List.map_append, List.map_append]
  simp only [List.map_cons, List.map_nil, List.getD_cons_zero, List.getD_cons_succ,
    List.append_assoc, List.cons_append, List.nil_append]
  have harith : 1 + (fifo.getD 0 0 + 1) = 2 + fifo.getD 0 0 := by omega
  rw [harith]

theorem getD_take_of_lt (l : List Nat) (n m : Nat) (h : m < n) :
    (l.take n).getD m 0 = l.getD m 0 := by
  rw [List.getD_eq_getElem?_getD, List.getD_eq_getElem?_getD, List.getElem?_take_of_lt h]

theorem txFrame_eq (p_tx_buffer p_buffer : List Nat) (length destination : Nat)
    (htx : length + 2 ≤ p_tx_buffer.length) (hsmall : length + 2 < 256)
    (hp : length ≤ p_buffer.length) (hd : destination < 256) :
    txFrame p_tx_buffer p_buffer length destination =
      [length + 1, destination] ++ p_buffer.take length := by
  obtain ⟨t0, tl, rfl⟩ : ∃ t0 tl, p_tx_buffer = t0 :: tl := by
    cases p_tx_buffer with
    | nil => simp at htx
    | cons t0 tl => exact ⟨t0, tl, rfl⟩
  obtain ⟨t1, tl2, rfl⟩ : ∃ t1 tl2, tl = t1 :: tl2 := by
    cases tl with
    | nil => simp at htx
    | cons t1 tl2 => exact ⟨t1, tl2, rfl⟩
  simp only [List.length_cons] at htx
  have hm1 : (length + 1) % 256 = length + 1 := Nat.mod_eq_of_lt (by omega)
  have hm2 : destination % 256 = destination := Nat.mod_eq_of_lt hd
  have hm3 : (length + DATA_FIELD) % 256 = length + 2 := by
    rw [DATA_FIELD]; exact Nat.mod_eq_of_lt (by omega)
  have hptake : (p_buffer.take length).length = length := List.length_take_of_le hp
  rw [txFrame, cc2500_tx_packet_buffer, hm3, LENGTH_FIELD, ADDRESS_FIELD, DATA_FIELD,
    hm1, hm2]
  have hsets : ((t0 :: t1 :: tl2).set 0 (length + 1)).set 1 destination =
      (length + 1) :: destination :: tl2 := rfl
  rw [hsets]
  rw [writeAt_eq _ _ _ (by simp [hptake]; omega)]
  have htake2 : ((length + 1) :: destination :: tl2).take 2 = [length + 1, destination] := rfl
  have hdrop : ((length + 1) :: destination :: tl2).drop (2 + (p_buffer.take length).length) =
      tl2.drop length := by
    rw [hptake, Nat.add_comm 2 length]
    rfl
  rw [htake2, hdrop]
  have hstep : ([length + 1, destination] ++ p_buffer.take length ++ tl2.drop length).take
      (length + 2) =
      (length + 1) :: destination :: ((p_buffer.take length ++ tl2.drop length).take length) := by
    simp only [List.append_assoc, List.cons_append, List.nil_append]
    rfl
  rw [hstep, List.take_append_of_le_length (by simp [hptake])]
  rw [List.take_of_length_le (by simp [hptake])]
  rfl

theorem receive_packet_eq_accept (rxstat : Nat) (fifo : List Nat) (maxlen : Nat)
    (h1 : rxstat &&& NUM_RXBYTES ≠ 0) (h2 : fifo.getD 0 0 ≤ maxlen) :
    receive_packet rxstat fifo maxlen =
      { ret := fifo.getD (2 + fifo.getD 0 0) 0 &&& CRC_OK
        lengthOut := fifo.getD 0 0
        writes :=
          (List.range (fifo.getD 0 0)).map (fun i => (i, fifo.getD (1 + i) 0)) ++
          [(fifo.getD 0 0, fifo.getD (1 + fifo.getD 0 0) 0),
           (fifo.getD 0 0 + 1, fifo.getD (2 + fifo.getD 0 0) 0)]
        strobes := []
        fifoReads := 1 + fifo.getD 0 0 + 2 } := by
  rw [receive_packet, if_pos h1]
  simp only [if_pos h2]
  rfl

theorem receive_packet_eq_oversize (rxstat : Nat) (fifo : List Nat) (maxlen : Nat)
    (h1 : rxstat &&& NUM_RXBYTES ≠ 0) (h2 : maxlen < fifo.getD 0 0) :
    receive_packet rxstat fifo maxlen =
      { ret := 0, lengthOut := fifo.getD 0 0, writes := [], strobes := [SFRX],
        fifoReads := 1 } := by
  rw [receive_packet, if_pos h1]
  simp only [if_neg (by omega : ¬ fifo.getD 0 0 ≤ maxlen)]

theorem callbackEvents_isr_of_ret_zero (rx_buffer : List Nat) (rxstat : Nat)
    (fifo : List Nat) (h : (receive_packet rxstat fifo CC2500_BUFFER_LENGTH).ret = 0) :
    callbackEvents (port2_isr rx_buffer true rxstat fifo) = [] := by
  rw [port2_isr]
  simp only [if_pos, if_true, h, ne_eq, not_true_eq_false, ite_false, List.append_nil]
  rw [callbackEvents, List.filterMap_append]
  simp [List.filterMap_map, Function.comp_def]

theorem map_fst_range_pairs (g : Nat → Nat) (n : Nat) :
    ((List.range n).map (fun i => (i, g i))).map Prod.fst = List.range n := by
  simp [List.map_map, Function.comp_def]

/-! Claim theorems. -/

/-- C1: for every FIFO-reported packet length strictly greater than the
caller-supplied maximum, `receive_packet` returns failure (0), sets the
output length to the oversized value, issues exactly one SFRX
(RX-FIFO-flush) strobe, writes no byte into the output buffer, and the
interrupt handler does not invoke the registered callback. -/
theorem C1_oversized_flush (rx_buffer : List Nat) (rxstat : Nat) (fifo : List Nat)
    (maxlen L : Nat) (hL : fifo.getD 0 0 = L) (h1 : rxstat &&& NUM_RXBYTES ≠ 0)
    (h2 : maxlen < L) :
    (receive_packet rxstat fifo maxlen).ret = 0 ∧
    (receive_packet rxstat fifo maxlen).lengthOut = L ∧
    (receive_packet rxstat fifo maxlen).strobes = [SFRX] ∧
    (receive_packet rxstat fifo maxlen).writes = [] ∧
    (CC2500_BUFFER_LENGTH < L →
      callbackEvents (port2_isr rx_buffer true rxstat fifo) = []) := by
  have hrp := receive_packet_eq_oversize rxstat fifo maxlen h1 (by rw [hL]; exact h2)
  refine ⟨by rw [hrp], by rw [hrp, hL], by rw [hrp], by rw [hrp], ?_⟩
  intro hB
  apply callbackEvents_isr_of_ret_zero
  rw [receive_packet_eq_oversize rxstat fifo CC2500_BUFFER_LENGTH h1 (by rw [hL]; exact hB)]

theorem C1_oversized_flush_witness :
    64 < 70 ∧
    (receive_packet 1 [70, 9] 64).ret = 0 ∧
    (receive_packet 1 [70, 9] 64).lengthOut = 70 ∧
    (receive_packet 1 [70, 9] 64).strobes = [SFRX] ∧
    (receive_packet 1 [70, 9] 64).writes = [] ∧
    callbackEvents (port2_isr [] true 1 [70, 9]) = [] := by
  have h := C1_oversized_flush [] 1 [70, 9] 64 70 rfl (by decide) (by decide)
  exact ⟨by decide, h.1, h.2.1, h.2.2.1, h.2.2.2.1, h.2.2.2.2 (by decide)⟩

/-- C2: the claim states that every power level at or beyond the table
bound (level ≥ 18) clamps to the last table entry and that the table
index used is always within the 18-entry table's bounds.  The clamp
identity `set_power(17) = set_power(255)` does hold, but the guard in the
source is `power > sizeof(power_table)` instead of `>=`, so level 18
slips through and the index used equals the table length 18 — one entry
past the end of the table, contradicting the source's own comment "Make
sure not to read values outside the power table". -/
theorem C2_set_power_off_by_one :
    set_power_index 17 = set_power_index 255 ∧
    cc2500_set_power 17 = cc2500_set_power 255 ∧
    set_power_index 18 = power_table.length ∧
    power_table.length = 18 := by decide

/-- C3: for every accepted packet (FIFO length L with L ≤ max length),
`receive_packet` records writes at exactly the buffer indices 0 .. L+1
(L payload bytes plus the 2-byte status trailer at L and L+1); hence when
the interrupt handler calls it with max length `CC2500_BUFFER_LENGTH`, a
packet of length exactly `CC2500_BUFFER_LENGTH` produces writes at
indices `CC2500_BUFFER_LENGTH` and `CC2500_BUFFER_LENGTH + 1`, past the
end of the `CC2500_BUFFER_LENGTH`-byte static receive buffer. -/
theorem C3_accepted_write_indices (rxstat : Nat) (fifo : List Nat) (maxlen L : Nat)
    (hL : fifo.getD 0 0 = L) (h1 : rxstat &&& NUM_RXBYTES ≠ 0) (h2 : L ≤ maxlen) :
    ((receive_packet rxstat fifo maxlen).writes.map Prod.fst = List.range (L + 2)) ∧
    (L = CC2500_BUFFER_LENGTH →
      CC2500_BUFFER_LENGTH ∈
        (receive_packet rxstat fifo CC2500_BUFFER_LENGTH).writes.map Prod.fst ∧
      CC2500_BUFFER_LENGTH + 1 ∈
        (receive_packet rxstat fifo CC2500_BUFFER_LENGTH).writes.map Prod.fst) := by
  constructor
  · rw [receive_writes_uniform rxstat fifo maxlen h1 (by rw [hL]; exact h2), hL,
      map_fst_range_pairs]
  · intro hB
    rw [receive_writes_uniform rxstat fifo CC2500_BUFFER_LENGTH h1 (by rw [hL, hB]), hL, hB,
      map_fst_range_pairs]
    exact ⟨List.mem_range.mpr (by omega), List.mem_range.mpr (by omega)⟩

theorem C3_accepted_write_indices_witness :
    (64 : Nat) ≤ 64 ∧
    ((receive_packet 1 (64 :: List.replicate 66 7) 64).writes.map Prod.fst =
      List.range (64 + 2)) ∧
    CC2500_BUFFER_LENGTH ∈
      (receive_packet 1 (64 :: List.replicate 66 7) CC2500_BUFFER_LENGTH).writes.map Prod.fst ∧
    CC2500_BUFFER_LENGTH + 1 ∈
      (receive_packet 1 (64 :: List.replicate 66 7) CC2500_BUFFER_LENGTH).writes.map Prod.fst := by
  have h := C3_accepted_write_indices 1 (64 :: List.replicate 66 7) 64 64 (by decide)
    (by decide) (by decide)
  exact ⟨by decide, h.1, (h.2 rfl).1, (h.2 rfl).2⟩

/-- C4: for every accepted packet (L ≤ max length), `receive_packet`
returns success (nonzero) if and only if the CRC-valid bit — the high
bit (bit 7) of the second status byte, which is FIFO byte 2+L — is set;
with that bit clear it returns failure regardless of payload content. -/
theorem C4_crc_gate (rxstat : Nat) (fifo : List Nat) (maxlen L : Nat)
    (hL : fifo.getD 0 0 = L) (h1 : rxstat &&& NUM_RXBYTES ≠ 0) (h2 : L ≤ maxlen) :
    (receive_packet rxstat fifo maxlen).ret ≠ 0 ↔
      (fifo.getD (2 + L) 0).testBit 7 = true := by
  rw [receive_packet_eq_accept rxstat fifo maxlen h1 (by rw [hL]; exact h2)]
  simp only [hL]
  exact and_CRC_OK_ne_zero_iff _

theorem C4_crc_gate_witness :
    ((receive_packet 1 [2, 10, 11, 0, 128] 64).ret ≠ 0 ↔
      ((128 : Nat)).testBit 7 = true) ∧
    ((receive_packet 1 [2, 10, 11, 0, 127] 64).ret ≠ 0 ↔
      ((127 : Nat)).testBit 7 = true) :=
  ⟨C4_crc_gate 1 [2, 10, 11, 0, 128] 64 2 rfl (by decide) (by decide),
   C4_crc_gate 1 [2, 10, 11, 0, 127] 64 2 rfl (by decide) (by decide)⟩

/-- C8: `cc2500_tx` performs its side effects in this strict order:
mask the GDO0 interrupt, burst-write `length` bytes into the TX FIFO,
issue the STX strobe, wait for the signal line to rise, wait for it to
fall, clear the pending interrupt flag, and re-enable the interrupt —
so the receive interrupt stays masked for the whole transmission. -/
theorem C8_tx_effect_order (p_buffer : List Nat) (length : Nat)
    (h : length ≤ p_buffer.length) :
    cc2500_tx p_buffer length =
      [Event.disableIE, Event.burstWriteFifo (p_buffer.take length), Event.strobeEv STX,
       Event.waitHigh, Event.waitLow, Event.clearFlag, Event.enableIE] ∧
    (p_buffer.take length).length = length :=
  ⟨rfl, List.length_take_of_le h⟩

theorem C8_tx_effect_order_witness :
    (2 : Nat) ≤ 3 ∧
    cc2500_tx [1, 2, 3] 2 =
      [Event.disableIE, Event.burstWriteFifo [1, 2], Event.strobeEv STX,
       Event.waitHigh, Event.waitLow, Event.clearFlag, Event.enableIE] ∧
    (([1, 2, 3] : List Nat).take 2).length = 2 :=
  ⟨by decide, C8_tx_effect_order [1, 2, 3] 2 (by decide)⟩

/-- C9: on every execution of the interrupt service routine — whatever
the interrupt source and whether or not a packet was delivered — the
last recorded action is the GDO0 interrupt-flag clear. -/
theorem C9_flag_always_cleared (rx_buffer : List Nat) (gdo0_flag : Bool)
    (rxstat : Nat) (fifo : List Nat) :
    (port2_isr rx_buffer gdo0_flag rxstat fifo).getLast? = some Event.clearFlag := by
  rw [port2_isr]
  exact List.getLast?_concat _

/-- C10: whenever the masked RXBYTES status reports no pending bytes,
`receive_packet` returns failure without modifying the caller's output
length, without issuing any strobe, and without reading any FIFO byte. -/
theorem C10_no_packet_pending (rxstat : Nat) (fifo : List Nat) (length : Nat)
    (h : rxstat &&& NUM_RXBYTES = 0) :
    receive_packet rxstat fifo length =
      { ret := 0, lengthOut := length, writes := [], strobes := [], fifoReads := 0 } := by
  rw [receive_packet, if_neg (by simp [h])]

theorem C10_no_packet_pending_witness :
    (128 : Nat) &&& NUM_RXBYTES = 0 ∧
    receive_packet 128 [5, 6] 16 =
      { ret := 0, lengthOut := 16, writes := [], strobes := [], fifoReads := 0 } :=
  ⟨by decide, C10_no_packet_pending 128 [5, 6] 16 (by decide)⟩

theorem receive_ret_zero_of_fail (rxstat : Nat) (fifo : List Nat) (maxlen L : Nat)
    (hL : fifo.getD 0 0 = L)
    (h : rxstat &&& NUM_RXBYTES = 0 ∨ maxlen < L ∨ fifo.getD (2 + L) 0 &&& CRC_OK = 0) :
    (receive_packet rxstat fifo maxlen).ret = 0 := by
  subst hL
  by_cases h1 : rxstat &&& NUM_RXBYTES = 0
  · rw [receive_packet, if_neg (by simp [h1])]
  · by_cases h2 : fifo.getD 0 0 ≤ maxlen
    · rw [receive_packet_eq_accept rxstat fifo maxlen h1 h2]
      rcases h with ha | hb | hc
      · exact absurd ha h1
      · omega
      · exact hc
    · rw [receive_packet_eq_oversize rxstat fifo maxlen h1 (by omega)]

/-- C5: for every inbound packet with the CRC-valid bit set and FIFO
length L ≤ `CC2500_BUFFER_LENGTH`, the interrupt handler invokes the
registered callback exactly once, passing the (updated) receive buffer
and exactly L as the length; for every failed receive — nothing pending,
oversized packet, or CRC bit clear — the callback is not invoked. -/
theorem C5_callback_exactly_once (rx_buffer : List Nat) (rxstat : Nat)
    (fifo : List Nat) (L : Nat) (hL : fifo.getD 0 0 = L) :
    (rxstat &&& NUM_RXBYTES ≠ 0 → L ≤ CC2500_BUFFER_LENGTH →
      fifo.getD (2 + L) 0 &&& CRC_OK ≠ 0 →
      callbackEvents (port2_isr rx_buffer true rxstat fifo) =
        [(applyWrites rx_buffer
            (receive_packet rxstat fifo CC2500_BUFFER_LENGTH).writes, L)]) ∧
    (rxstat &&& NUM_RXBYTES = 0 ∨ CC2500_BUFFER_LENGTH < L ∨
        fifo.getD (2 + L) 0 &&& CRC_OK = 0 →
      callbackEvents (port2_isr rx_buffer true rxstat fifo) = []) := by
  constructor
  · intro h1 h2 h3
    have hrp := receive_packet_eq_accept rxstat fifo CC2500_BUFFER_LENGTH h1
      (by rw [hL]; exact h2)
    rw [port2_isr, hrp]
    simp only [List.getD_eq_getElem?_getD] at hL h3
    simp [callbackEvents, hL, h3]
  · intro hfail
    exact callbackEvents_isr_of_ret_zero rx_buffer rxstat fifo
      (receive_ret_zero_of_fail rxstat fifo CC2500_BUFFER_LENGTH L hL hfail)

theorem C5_callback_exactly_once_witness :
    callbackEvents (port2_isr [] true 1 [2, 10, 11, 0, 128]) =
      [(applyWrites []
          (receive_packet 1 [2, 10, 11, 0, 128] CC2500_BUFFER_LENGTH).writes, 2)] ∧
    callbackEvents (port2_isr [] true 1 [2, 10, 11, 0, 127]) = [] :=
  ⟨(C5_callback_exactly_once [] 1 [2, 10, 11, 0, 128] 2 rfl).1
      (by decide) (by decide) (by decide),
   (C5_callback_exactly_once [] 1 [2, 10, 11, 0, 127] 2 rfl).2
      (Or.inr (Or.inr (by decide)))⟩

/-- C6: for every payload, length and destination with
`length + 2 ≤ CC2500_BUFFER_LENGTH` (the tx buffer capacity),
`cc2500_tx_packet` writes `length + 1` into frame byte 0, the destination
into frame byte 1, the payload starting at offset 2, and hands a frame of
`length + 2` bytes to `cc2500_tx`; in particular payload `[1, 2, 3]` with
length 3 and destination 5 produces the frame `[4, 5, 1, 2, 3]`. -/
theorem C6_tx_packet_frame (p_tx_buffer p_buffer : List Nat) (length destination : Nat)
    (htx : p_tx_buffer.length = CC2500_BUFFER_LENGTH)
    (hlen : length + 2 ≤ CC2500_BUFFER_LENGTH)
    (hp : length ≤ p_buffer.length) (hd : destination < 256) :
    (cc2500_tx_packet_buffer p_tx_buffer p_buffer length destination).getD 0 0 =
      length + 1 ∧
    (cc2500_tx_packet_buffer p_tx_buffer p_buffer length destination).getD 1 0 =
      destination ∧
    (∀ i, i < length →
      (cc2500_tx_packet_buffer p_tx_buffer p_buffer length destination).getD (2 + i) 0 =
        p_buffer.getD i 0) ∧
    txFrame p_tx_buffer p_buffer length destination =
      [length + 1, destination] ++ p_buffer.take length ∧
    (txFrame p_tx_buffer p_buffer length destination).length = length + 2 ∧
    Event.burstWriteFifo (txFrame p_tx_buffer p_buffer length destination) ∈
      cc2500_tx_packet_trace p_tx_buffer p_buffer length destination ∧
    txFrame (List.replicate CC2500_BUFFER_LENGTH 0) [1, 2, 3] 3 5 = [4, 5, 1, 2, 3] := by
  have hB : CC2500_BUFFER_LENGTH = 64 := rfl
  have hsmall : length + 2 < 256 := by omega
  have hpt : (p_buffer.take length).length = length := List.length_take_of_le hp
  have hframe := txFrame_eq p_tx_buffer p_buffer length destination
    (by rw [htx]; exact hlen) hsmall hp hd
  have htake : txFrame p_tx_buffer p_buffer length destination =
      (cc2500_tx_packet_buffer p_tx_buffer p_buffer length destination).take
        (length + 2) := by
    rw [txFrame, DATA_FIELD, Nat.mod_eq_of_lt (by omega)]
  have hgetD : ∀ i, i < length + 2 →
      (cc2500_tx_packet_buffer p_tx_buffer p_buffer length destination).getD i 0 =
        ([length + 1, destination] ++ p_buffer.take length).getD i 0 := by
    intro i hi
    rw [← hframe, htake, getD_take_of_lt _ _ _ hi]
  refine ⟨?_, ?_, ?_, hframe, ?_, ?_, by decide⟩
  · rw [hgetD 0 (by omega)]; rfl
  · rw [hgetD 1 (by omega)]; rfl
  · intro i hi
    rw [hgetD (2 + i) (by omega), show 2 + i = i + 2 from by omega]
    simp only [List.cons_append, List.nil_append, List.getD_cons_succ]
    exact getD_take_of_lt p_buffer length i hi
  · rw [hframe]
    simp [hpt]
  · rw [cc2500_tx_packet_trace, cc2500_tx, txFrame]
    simp

theorem C6_tx_packet_frame_witness :
    (2 : Nat) + 2 ≤ CC2500_BUFFER_LENGTH ∧
    (cc2500_tx_packet_buffer (List.replicate 64 0) [9, 8] 2 1).getD 0 0 = 3 ∧
    (cc2500_tx_packet_buffer (List.replicate 64 0) [9, 8] 2 1).getD 1 0 = 1 ∧
    (cc2500_tx_packet_buffer (List.replicate 64 0) [9, 8] 2 1).getD 2 0 = 9 ∧
    (cc2500_tx_packet_buffer (List.replicate 64 0) [9, 8] 2 1).getD 3 0 = 8 ∧
    txFrame (List.replicate 64 0) [9, 8] 2 1 = [3, 1, 9, 8] ∧
    (txFrame (List.replicate 64 0) [9, 8] 2 1).length = 4 ∧
    Event.burstWriteFifo (txFrame (List.replicate 64 0) [9, 8] 2 1) ∈
      cc2500_tx_packet_trace (List.replicate 64 0) [9, 8] 2 1 ∧
    txFrame (List.replicate CC2500_BUFFER_LENGTH 0) [1, 2, 3] 3 5 = [4, 5, 1, 2, 3] := by
  have h := C6_tx_packet_frame (List.replicate 64 0) [9, 8] 2 1
    (by decide) (by decide) (by decide) (by decide)
  exact ⟨by decide, h.1, h.2.1, h.2.2.1 0 (by decide), h.2.2.1 1 (by decide),
    h.2.2.2.1, h.2.2.2.2.1, h.2.2.2.2.2.1, h.2.2.2.2.2.2⟩

/-- C7: for every payload and destination with
`length + 2 ≤ CC2500_BUFFER_LENGTH`, building the outbound frame with
`cc2500_tx_packet` and presenting its bytes as the RX-FIFO contents with
a CRC-valid trailer makes `receive_packet` succeed and round-trips the
destination byte (parsed index 0) and every payload byte (parsed indices
1 .. length) exactly; the reported length is `length + 1` (address byte
plus payload, as the framer counts). -/
theorem C7_roundtrip (p_tx_buffer rx_buffer p_buffer : List Nat)
    (length destination rssi lqi rxstat : Nat)
    (htx : p_tx_buffer.length = CC2500_BUFFER_LENGTH)
    (hrx : rx_buffer.length = CC2500_BUFFER_LENGTH)
    (hlen : length + 2 ≤ CC2500_BUFFER_LENGTH)
    (hp : length ≤ p_buffer.length) (hd : destination < 256)
    (hstat : rxstat &&& NUM_RXBYTES ≠ 0) (hcrc : lqi &&& CRC_OK ≠ 0) :
    (receive_packet rxstat
        (txFrame p_tx_buffer p_buffer length destination ++ [rssi, lqi])
        CC2500_BUFFER_LENGTH).ret ≠ 0 ∧
    (receive_packet rxstat
        (txFrame p_tx_buffer p_buffer length destination ++ [rssi, lqi])
        CC2500_BUFFER_LENGTH).lengthOut = length + 1 ∧
    (applyWrites rx_buffer
        (receive_packet rxstat
          (txFrame p_tx_buffer p_buffer length destination ++ [rssi, lqi])
          CC2500_BUFFER_LENGTH).writes).getD 0 0 = destination ∧
    (∀ i, i < length →
      (applyWrites rx_buffer
        (receive_packet rxstat
          (txFrame p_tx_buffer p_buffer length destination ++ [rssi, lqi])
          CC2500_BUFFER_LENGTH).writes).getD (1 + i) 0 = p_buffer.getD i 0) := by
  have hB : CC2500_BUFFER_LENGTH = 64 := rfl
  have hsmall : length + 2 < 256 := by omega
  have hpt : (p_buffer.take length).length = length := List.length_take_of_le hp
  have hframe := txFrame_eq p_tx_buffer p_buffer length destination
    (by rw [htx]; exact hlen) hsmall hp hd
  have hfifo : txFrame p_tx_buffer p_buffer length destination ++ [rssi, lqi] =
      (length + 1) :: destination :: (p_buffer.take length ++ [rssi, lqi]) := by
    rw [hframe]
    simp
  have hF0 : ((length + 1) :: destination ::
      (p_buffer.take length ++ [rssi, lqi])).getD 0 0 = length + 1 := rfl
  have hle : ((length + 1) :: destination ::
      (p_buffer.take length ++ [rssi, lqi])).getD 0 0 ≤ CC2500_BUFFER_LENGTH := by
    rw [hF0]; omega
  have hrp := receive_packet_eq_accept rxstat
    ((length + 1) :: destination :: (p_buffer.take length ++ [rssi, lqi]))
    CC2500_BUFFER_LENGTH hstat hle
  have hw := receive_writes_uniform rxstat
    ((length + 1) :: destination :: (p_buffer.take length ++ [rssi, lqi]))
    CC2500_BUFFER_LENGTH hstat hle
  have hw2 : (receive_packet rxstat
      ((length + 1) :: destination :: (p_buffer.take length ++ [rssi, lqi]))
      CC2500_BUFFER_LENGTH).writes =
      (List.range (length + 1 + 2)).map (fun k =>
        (k, ((length + 1) :: destination ::
          (p_buffer.take length ++ [rssi, lqi])).getD (1 + k) 0)) := by
    rw [hw, hF0]
  have hlq : ((length + 1) :: destination ::
      (p_buffer.take length ++ [rssi, lqi])).getD
        (2 + ((length + 1) :: destination ::
          (p_buffer.take length ++ [rssi, lqi])).getD 0 0) 0 = lqi := by
    rw [hF0, show 2 + (length + 1) = length + 3 from by omega]
    simp only [List.getD_cons_succ]
    rw [List.getD_eq_getElem?_getD, List.getElem?_append_right (by rw [hpt]; omega)]
    rw [hpt, show length + 1 - length = 1 from by omega]
    rfl
  refine ⟨?_, ?_, ?_, ?_⟩
  · rw [hfifo, hrp]
    show ((length + 1) :: destination ::
        (p_buffer.take length ++ [rssi, lqi])).getD
          (2 + ((length + 1) :: destination ::
            (p_buffer.take length ++ [rssi, lqi])).getD 0 0) 0 &&& CRC_OK ≠ 0
    rw [hlq]
    exact hcrc
  · rw [hfifo, hrp]
    exact hF0
  · rw [hfifo, hw2,
      applyWrites_range_getD _ (length + 1 + 2) rx_buffer 0 (by omega) (by rw [hrx]; omega)]
    rfl
  · intro i hi
    rw [hfifo, hw2,
      applyWrites_range_getD _ (length + 1 + 2) rx_buffer (1 + i) (by omega)
        (by rw [hrx]; omega)]
    rw [show 1 + (1 + i) = i + 2 from by omega]
    simp only [List.getD_cons_succ]
    rw [List.getD_eq_getElem?_getD, List.getElem?_append_left (by rw [hpt]; exact hi)]
    rw [← List.getD_eq_getElem?_getD]
    exact getD_take_of_lt p_buffer length i hi

theorem C7_roundtrip_witness :
    (3 : Nat) + 2 ≤ CC2500_BUFFER_LENGTH ∧
    (receive_packet 1 (txFrame (List.replicate 64 0) [1, 2, 3] 3 5 ++ [7, 255])
        CC2500_BUFFER_LENGTH).ret ≠ 0 ∧
    (receive_packet 1 (txFrame (List.replicate 64 0) [1, 2, 3] 3 5 ++ [7, 255])
        CC2500_BUFFER_LENGTH).lengthOut = 4 ∧
    (applyWrites (List.replicate 64 0)
        (receive_packet 1 (txFrame (List.replicate 64 0) [1, 2, 3] 3 5 ++ [7, 255])
          CC2500_BUFFER_LENGTH).writes).getD 0 0 = 5 ∧
    (applyWrites (List.replicate 64 0)
        (receive_packet 1 (txFrame (List.replicate 64 0) [1, 2, 3] 3 5 ++ [7, 255])
          CC2500_BUFFER_LENGTH).writes).getD 1 0 = 1 ∧
    (applyWrites (List.replicate 64 0)
        (receive_packet 1 (txFrame (List.replicate 64 0) [1, 2, 3] 3 5 ++ [7, 255])
          CC2500_BUFFER_LENGTH).writes).getD 2 0 = 2 ∧
    (applyWrites (List.replicate 64 0)
        (receive_packet 1 (txFrame (List.replicate 64 0) [1, 2, 3] 3 5 ++ [7, 255])
          CC2500_BUFFER_LENGTH).writes).getD 3 0 = 3 := by
  have h := C7_roundtrip (List.replicate 64 0) (List.replicate 64 0) [1, 2, 3]
    3 5 7 255 1 (by decide) (by decide) (by decide) (by decide) (by decide)
    (by decide) (by decide)
  exact ⟨by decide, h.1, h.2.1, h.2.2.1, h.2.2.2 0 (by decide), h.2.2.2 1 (by decide),
    h.2.2.2 2 (by decide)⟩

end RadioCC2500
